import Mathlib

/-!
A shallow embedding of `linux_utils/luks.py`, the LUKS full-disk-encryption
orchestration module of python-linux-utils.

The module is a thin layer that builds command-line invocations and issues
them through an execution context (the external `executor` library).  We
embed each function as a pure Lean definition that returns the invocation(s)
it would issue, together with the keyword options passed to the execution
context (`sudo=`, `tty=`, `shell=`, `silent=`).  The retry loop of
`unlock_filesystem` and the crypttab-driven compatibility shims are embedded
as functions of oracles describing the outcomes of the external commands and
the parsed registry entries.
-/

namespace LinuxUtils

/-- One external command invocation issued through an execution context
(`executor` contexts), as used by `luks.py`: the positional arguments plus
the keyword options appearing at the call sites.  `tty = none` records that
the call site did not pass `tty=` explicitly. -/
structure Invocation where
  args : List String
  useSudo : Bool
  tty : Option Bool
  shell : Bool
  silent : Bool
deriving DecidableEq

/-- Python exceptions that the embedded code can raise. -/
inductive PyEx where
  | valueError (msg : String)
  | commandFailed
  | tooManyInvalidReplies
deriving DecidableEq

/-- Result of running a piece of embedded Python code: a value or a raised
exception. -/
inductive PyResult (α : Type) where
  | ok (val : α)
  | exn (e : PyEx)
deriving DecidableEq

/-- Truthiness of an optional Python string (`if key_file:`): `None` and the
empty string are falsy, every other string is truthy. -/
def pyTruthy : Option String → Bool
  | none => false
  | some s => s != ""

/-- Python `str.startswith`. -/
def startswith (s pre : String) : Bool := pre.data.isPrefixOf s.data

/-- The characters after the first occurrence of `sep`, the third component
of Python `str.partition`; empty when `sep` does not occur. -/
def afterFirst (sep : Char) : List Char → List Char
  | [] => []
  | c :: cs => if c = sep then cs else afterFirst sep cs

/-- Third component of Python `s.partition(sep)` for a one-character
separator. -/
def partitionAfter (s : String) (sep : Char) : String := ⟨afterFirst sep s.data⟩

/-- Whitespace for Python `str.strip` (ASCII subset). -/
def isPySpace (c : Char) : Bool :=
  c = ' ' || c = '\t' || c = '\n' || c = '\r' || c.toNat = 11 || c.toNat = 12

/-- Python `str.strip()` with no argument: drop leading and trailing
whitespace. -/
def pyStrip (s : String) : String :=
  ⟨((s.data.dropWhile isPySpace).reverse.dropWhile isPySpace).reverse⟩

/-- Value of a nonempty all-digit character run, `none` otherwise. -/
def digitsVal : List Char → Nat → Option Nat
  | [], acc => some acc
  | c :: cs, acc =>
    if c.isDigit then digitsVal cs (10 * acc + (c.toNat - 48)) else none

/-- Model of Python `int(str)` on the strings this module feeds it: optional
surrounding whitespace and an optional sign followed by decimal digits
(digit-grouping underscores are not modelled).  `none` models the
`ValueError` that `int` raises on any other string. -/
def pyInt? (s : String) : Option Int :=
  match (pyStrip s).data with
  | [] => none
  | '-' :: rest => if rest = [] then none else (digitsVal rest 0).map (fun n => -(n : Int))
  | '+' :: rest => if rest = [] then none else (digitsVal rest 0).map (fun n => (n : Int))
  | l => (digitsVal l 0).map (fun n => (n : Int))

/-- Python string `<`: lexicographic comparison of the code-point
sequences (shorter prefixes compare smaller). -/
def charsLt : List Char → List Char → Bool
  | _, [] => false
  | [], _ :: _ => true
  | a :: as, b :: bs =>
    if a.toNat < b.toNat then true
    else if b.toNat < a.toNat then false
    else charsLt as bs

/-- Python string `<=`, as used (negated `>`) by `sorted`. -/
def pyLe (a b : String) : Prop := charsLt b.data a.data = false

instance (a b : String) : Decidable (pyLe a b) := by
  unfold pyLe; infer_instance

/-- Python `sorted` on a list of strings: lexicographic by code point.
Python uses a stable sort, but equal strings are identical, so any sorted
permutation is the same list and insertion sort is a faithful model. -/
def pySorted (l : List String) : List String := l.insertionSort pyLe

/-- The apostrophe character (kept out of string literals). -/
def squoteChar : Char := Char.ofNat 39

/-- A one-character string holding an apostrophe. -/
def squote : String := String.singleton squoteChar

/-- Characters that `pipes.quote` leaves unquoted (ASCII reading of its
regular expression of safe characters). -/
def shellSafeChar (c : Char) : Bool :=
  c.isAlphanum || c == '_' || c == '@' || c == '%' || c == '+' || c == '=' ||
    c == ':' || c == ',' || c == '.' || c == '/' || c == '-'

/-- Model of `executor.quote` (Python `pipes.quote`), the shell quoting used
by `create_image_file`: empty strings become a quoted empty string, strings
of safe characters pass through, anything else is wrapped in apostrophes
with embedded apostrophes escaped. -/
def quote (s : String) : String :=
  if s = "" then squote ++ squote
  else if s.data.all shellSafeChar then s
  else squote ++ (s.replace squote (squote ++ "\"" ++ squote ++ "\"" ++ squote)) ++ squote

/-- The constant DEFAULT_KEY_SIZE from `luks.py`: the default size in bytes
of generated key files. -/
def DEFAULT_KEY_SIZE : Nat := 2048

/-- The function create_image_file: the single shell invocation it issues
(`head --bytes=<size> /dev/zero > <quoted filename>` with
`shell=True, tty=False`; `sudo` is not passed, hence false).  `size` is the
already-coerced byte count (size-string parsing is a collaborator concern). -/
def create_image_file (filename : String) (size : Nat) : Invocation :=
  ⟨["head --bytes=" ++ toString size ++ " /dev/zero > " ++ quote filename],
    false, some false, true, false⟩

/-- The function generate_key_file: the three invocations it issues in
order — the `dd` single-block write from `/dev/urandom` (silent, sudo), the
`chown root:root` and the `chmod 400` fix-ups (both sudo). -/
def generate_key_file (filename : String) (size : Nat) : List Invocation :=
  [⟨["dd", "if=/dev/urandom", "of=" ++ filename, "bs=" ++ toString size, "count=1"],
     true, none, false, true⟩,
   ⟨["chown", "root:root", filename], true, none, false, false⟩,
   ⟨["chmod", "400", filename], true, none, false, false⟩]

/-- The function create_encrypted_filesystem: the `cryptsetup luksFormat`
invocation it issues.  `--batch-mode` and the trailing key-file argument
are added when `key_file` is truthy; the pseudo-terminal flag is
`key_file is None`. -/
def create_encrypted_filesystem (device_file : String) (key_file : Option String) : Invocation :=
  ⟨["cryptsetup"]
      ++ (if pyTruthy key_file then ["--batch-mode"] else [])
      ++ ["luksFormat", device_file]
      ++ (if pyTruthy key_file then [key_file.getD ""] else []),
    true, some key_file.isNone, false, false⟩

/-- The function lock_filesystem: the `cryptsetup luksClose` invocation. -/
def lock_filesystem (target : String) : Invocation :=
  ⟨["cryptsetup", "luksClose", target], true, some false, false, false⟩

/-- The `--key-file=<path>` flag list that `unlock_filesystem` seeds
`open_options` with; a falsy (absent or empty) key file adds nothing. -/
def keyFileFlags : Option String → List String
  | none => []
  | some k => if k = "" then [] else ["--key-file=" ++ k]

/-- The option loop of `unlock_filesystem` (lines 183–191): walk the options
iterable, appending `--allow-discards` for `discard`, `--readonly` for
`readonly`, and re-binding `tries` for tokens starting with `tries=` (whose
value after the first `=` goes through `int`, raising `ValueError` on a
non-integer); every other token falls through silently. -/
def unlock_options_go : List String → List String → Int → PyResult (List String × Int)
  | [], open_options, tries => .ok (open_options, tries)
  | opt :: rest, open_options, tries =>
    if opt = "discard" then
      unlock_options_go rest (open_options ++ ["--allow-discards"]) tries
    else if opt = "readonly" then
      unlock_options_go rest (open_options ++ ["--readonly"]) tries
    else if startswith opt "tries=" then
      match pyInt? (partitionAfter opt '=') with
      | some v => unlock_options_go rest open_options v
      | none => .exn (.valueError "invalid literal for int with base 10")
    else
      unlock_options_go rest open_options tries

/-- The function unlock_filesystem up to the retry loop: builds the
`cryptsetup ... luksOpen <device> <target>` argument list (with
`open_options` sorted) and the effective retry count (default 3).
`options = none` models passing `options=None`; a `None` or empty iterable
skips the loop, which coincides with folding over the empty list. -/
def unlock_prepare (device_file target : String) (key_file : Option String)
    (options : Option (List String)) : PyResult (List String × Int) :=
  match unlock_options_go (options.getD []) (keyFileFlags key_file) 3 with
  | .ok (open_options, tries) =>
      .ok (["cryptsetup"] ++ pySorted open_options ++ ["luksOpen", device_file, target], tries)
  | .exn e => .exn e

/-- Outcome of the retry loop of `unlock_filesystem`. -/
inductive UnlockOutcome where
  | success
  | commandFailed
  | tooManyInvalidReplies
  | outOfFuel
deriving DecidableEq

/-- What a run of the retry loop did: how many attempts were made, how many
retry warnings were logged, and how it ended. -/
structure UnlockRun where
  attempts : Nat
  warnings : Nat
  outcome : UnlockOutcome
deriving DecidableEq

/-- The retry loop of `unlock_filesystem` (lines 194–203), driven by an
oracle `fails` giving the outcome of each numbered attempt of the open
command.  `retry_limit(tries)` (from humanfriendly) yields attempt numbers
1, 2, ... and raises `TooManyInvalidReplies` before yielding a number that
exceeds a non-zero limit.  A failed attempt is retried with a warning only
when `attempt < tries` and the key file is falsy; otherwise the failure is
re-raised.  `fuel` bounds the recursion; `unlock_run` supplies enough fuel
that `outOfFuel` is unreachable. -/
def unlock_go (fails : Nat → Bool) (key_file : Bool) (tries : Int)
    (fuel : Nat) (attempt warnings : Nat) : UnlockRun :=
  if tries ≠ 0 ∧ tries < (attempt : Int) then
    ⟨attempt - 1, warnings, .tooManyInvalidReplies⟩
  else if fails attempt = false then
    ⟨attempt, warnings, .success⟩
  else if (attempt : Int) < tries ∧ key_file = false then
    match fuel with
    | 0 => ⟨attempt, warnings, .outOfFuel⟩
    | f + 1 => unlock_go fails key_file tries f (attempt + 1) (warnings + 1)
  else
    ⟨attempt, warnings, .commandFailed⟩

/-- The whole retry loop of `unlock_filesystem`, starting at attempt 1 with
no warnings logged. -/
def unlock_run (fails : Nat → Bool) (key_file : Bool) (tries : Int) : UnlockRun :=
  unlock_go fails key_file tries tries.toNat 1 0

/-- Modelled from the spec: a parsed registry entry as produced by the
crypttab parser, a collaborator whose source is not under `src/`.  Per the
the data model of the spec it carries the target name, source device path, key file
path (or absent), option set, and an unlock status computed by the
collaborator. -/
structure CrypttabEntry where
  target : String
  source_device : String
  key_file : Option String
  options : List String
  is_unlocked : Bool
deriving DecidableEq

/-- What a compatibility shim decides to do for a requested target. -/
inductive ShimDecision where
  | runNative (inv : Invocation)
  | nothingToDo
  | doUnlock (device_file : String) (key_file : Option String)
      (options : List String) (target : String)
  | doLock (target : String)
  | notFound
deriving DecidableEq

/-- Whether a crypttab entry applies to `target`: its target name matches
and its option set includes the `luks` marker (the code checks the target name
for equality and membership of the string luks in the option list). -/
def entryMatches (target : String) (e : CrypttabEntry) : Prop :=
  e.target = target ∧ "luks" ∈ e.options

instance (target : String) (e : CrypttabEntry) : Decidable (entryMatches target e) := by
  unfold entryMatches; infer_instance

/-- The emulation loop of `cryptdisks_start` (lines 239–253): scan the
parsed entries for the first one matching target name and `luks` option; if
it is already unlocked do nothing, otherwise unlock it with the source
device, key file and options of that entry; the for-else raises `ValueError` when
no entry matched. -/
def cryptdisks_start_go (target : String) : List CrypttabEntry → ShimDecision
  | [] => .notFound
  | e :: rest =>
    if entryMatches target e then
      if e.is_unlocked then .nothingToDo
      else .doUnlock e.source_device e.key_file e.options e.target
    else cryptdisks_start_go target rest

/-- The emulation loop of `cryptdisks_stop` (lines 276–286): first matching
entry; if it is unlocked, lock the target passed to the shim, otherwise do nothing;
for-else raises `ValueError` when no entry matched. -/
def cryptdisks_stop_go (target : String) : List CrypttabEntry → ShimDecision
  | [] => .notFound
  | e :: rest =>
    if entryMatches target e then
      if e.is_unlocked then .doLock target
      else .nothingToDo
    else cryptdisks_stop_go target rest

/-- The shim cryptdisks_start: when `find_program` reports the native
helper available, delegate to it with sudo (the registry is not consulted);
otherwise emulate by scanning the parsed crypttab entries. -/
def cryptdisks_start_decision (target : String) (nativeAvailable : Bool)
    (entries : List CrypttabEntry) : ShimDecision :=
  if nativeAvailable then
    .runNative ⟨["cryptdisks_start", target], true, none, false, false⟩
  else cryptdisks_start_go target entries

/-- The shim cryptdisks_stop: native delegation when available, else
emulation over the parsed crypttab entries. -/
def cryptdisks_stop_decision (target : String) (nativeAvailable : Bool)
    (entries : List CrypttabEntry) : ShimDecision :=
  if nativeAvailable then
    .runNative ⟨["cryptdisks_stop", target], true, none, false, false⟩
  else cryptdisks_stop_go target entries

/-- Run a shim decision: `notFound` raises the for-else `ValueError` about
a filesystem not listed in the crypttab registry, doing nothing succeeds,
and each delegated command (native helper, unlock, lock) fails with
`ExternalCommandFailed` exactly when the oracle says so. -/
def shim_run (d : ShimDecision) (delegatedFails : Bool) : PyResult Unit :=
  match d with
  | .notFound => .exn (.valueError "Encrypted filesystem not listed in /etc/crypttab!")
  | .nothingToDo => .ok ()
  | .runNative _ => if delegatedFails then .exn .commandFailed else .ok ()
  | .doUnlock _ _ _ _ => if delegatedFails then .exn .commandFailed else .ok ()
  | .doLock _ => if delegatedFails then .exn .commandFailed else .ok ()

/-- The shim cryptdisks_start end to end: decision then execution. -/
def cryptdisks_start_run (target : String) (nativeAvailable : Bool)
    (entries : List CrypttabEntry) (delegatedFails : Bool) : PyResult Unit :=
  shim_run (cryptdisks_start_decision target nativeAvailable entries) delegatedFails

/-- The shim cryptdisks_stop end to end: decision then execution. -/
def cryptdisks_stop_run (target : String) (nativeAvailable : Bool)
    (entries : List CrypttabEntry) (delegatedFails : Bool) : PyResult Unit :=
  shim_run (cryptdisks_stop_decision target nativeAvailable entries) delegatedFails

/-- Acquisition of TemporaryKeyFile: the invocations it issues are exactly
those of `generate_key_file` on the stored filename and size. -/
def temporaryKeyFile_enter_invocations (filename : String) (size : Nat) : List Invocation :=
  generate_key_file filename size

/-- Release of TemporaryKeyFile: the forced removal it issues
(`rm --force <filename>` with sudo), on every exit of the scope. -/
def temporaryKeyFile_exit_invocation (filename : String) : Invocation :=
  ⟨["rm", "--force", filename], true, none, false, false⟩

/-- Acquisition of TemporaryKeyFile acting on the on-disk state of the key
file: a successful generation leaves the file on disk, a failing one raises
`ExternalCommandFailed`. -/
def temporaryKeyFile_enter (genFails : Bool) (_onDisk : Bool) : PyResult Bool :=
  if genFails then .exn .commandFailed else .ok true

/-- Release of TemporaryKeyFile acting on the on-disk state: a successful
`rm --force` removes the file, a failing one raises
`ExternalCommandFailed`, and the on-disk state is then unchanged. -/
def temporaryKeyFile_exit (rmFails : Bool) (_onDisk : Bool) : PyResult Bool :=
  if rmFails then .exn .commandFailed else .ok false

/-- Python `with` semantics over a Boolean file-on-disk state: run
`enter`; when it raises, nothing else runs.  Otherwise run the body (which
may transform the state and finish normally or with an exception), then run
`exitStep` unconditionally; an exception from `exitStep` propagates,
otherwise the outcome of the body propagates. -/
def pyWith (enter : Bool → PyResult Bool) (body : Bool → PyResult Unit × Bool)
    (exitStep : Bool → PyResult Bool) (s0 : Bool) : PyResult Unit × Bool :=
  match enter s0 with
  | .exn e => (.exn e, s0)
  | .ok s1 =>
    match body s1 with
    | (r, s2) =>
      match exitStep s2 with
      | .exn e2 => (.exn e2, s2)
      | .ok s3 => (r, s3)

/-- The `TemporaryKeyFile` context manager over the on-disk state of the
key file: generate on acquisition, force-remove on release. -/
def temporary_key_file_scope (genFails rmFails : Bool)
    (body : Bool → PyResult Unit × Bool) (s0 : Bool) : PyResult Unit × Bool :=
  pyWith (temporaryKeyFile_enter genFails) body (temporaryKeyFile_exit rmFails) s0

/-- Value of an octal digit. -/
def octDigit? (c : Char) : Option Nat :=
  if c.isDigit ∧ c < '8' then some (c.toNat - 48) else none

/-- Numeric interpretation of a `chmod` octal mode argument such as
`"400"`. -/
def parseOctal (s : String) : Option Nat :=
  if s = "" then none
  else s.data.foldl
    (fun acc c =>
      match acc, octDigit? c with
      | some a, some d => some (8 * a + d)
      | _, _ => none)
    (some 0)

/-- Owner read bit (`0o400`) of a permission mode. -/
def ownerCanRead (m : Nat) : Bool := m.testBit 8

/-- Owner write bit (`0o200`) of a permission mode. -/
def ownerCanWrite (m : Nat) : Bool := m.testBit 7

/-- Owner execute bit (`0o100`) of a permission mode. -/
def ownerCanExec (m : Nat) : Bool := m.testBit 6

/-- The group permission octal digit of a mode. -/
def groupBits (m : Nat) : Nat := m / 8 % 8

/-- The other-users permission octal digit of a mode. -/
def otherBits (m : Nat) : Nat := m % 8

/-- The number of bytes a `dd` invocation with block size `bs` and block
count `count` writes. -/
def ddBytes (bs count : Nat) : Nat := bs * count

/-- Spec-side reading of one unlock option token: the command flag it maps
to, if any (`discard` and `readonly` are the only flag-producing tokens). -/
def optionFlag (o : String) : Option String :=
  if o = "discard" then some "--allow-discards"
  else if o = "readonly" then some "--readonly"
  else none

/-- Spec-side description of the flag block of the unlock command: the flags
produced by the option tokens together with the key-file flag, sorted
lexicographically as one list.  (Stated with the option flags first so that
agreement with the code, which seeds the list with the key-file flag, is a
genuine sorting fact.) -/
def spec_unlock_flags (key_file : Option String) (options : List String) : List String :=
  pySorted (options.filterMap optionFlag ++ keyFileFlags key_file)

/-- An options list is well-formed for `unlock_filesystem` when every
`tries=` token carries a value `int` accepts. -/
def triesOk (options : List String) : Prop :=
  ∀ o ∈ options, startswith o "tries=" = true → (pyInt? (partitionAfter o '=')).isSome = true

instance (options : List String) : Decidable (triesOk options) := by
  unfold triesOk; infer_instance

/-- Projection of `unlock_prepare` to the constructed open command. -/
def unlock_open_command (device_file target : String) (key_file : Option String)
    (options : Option (List String)) : PyResult (List String) :=
  match unlock_prepare device_file target key_file options with
  | .ok (cmd, _) => .ok cmd
  | .exn e => .exn e

/-! ### Order facts about the Python string comparison -/

theorem charsLt_asymm : ∀ l m : List Char, charsLt l m = true → charsLt m l = false := by
  intro l
  induction l with
  | nil =>
    intro m h
    cases m with
    | nil => simp [charsLt] at h
    | cons b bs => simp [charsLt]
  | cons a as ih =>
    intro m h
    cases m with
    | nil => simp [charsLt] at h
    | cons b bs =>
      simp only [charsLt] at h ⊢
      by_cases h1 : a.toNat < b.toNat
      · have h2 : ¬ b.toNat < a.toNat := by omega
        simp [h1, h2]
      · by_cases h2 : b.toNat < a.toNat
        · simp [h1, h2] at h
        · simp [h1, h2] at h ⊢
          exact ih bs h

theorem charsLt_connex : ∀ l m : List Char,
    charsLt l m = false → charsLt m l = false → l = m := by
  intro l
  induction l with
  | nil =>
    intro m h1 h2
    cases m with
    | nil => rfl
    | cons b bs => simp [charsLt] at h1
  | cons a as ih =>
    intro m h1 h2
    cases m with
    | nil => simp [charsLt] at h2
    | cons b bs =>
      simp only [charsLt] at h1 h2
      by_cases ha : a.toNat < b.toNat
      · simp [ha] at h1
      · by_cases hb : b.toNat < a.toNat
        · simp [ha, hb] at h1 h2
        · simp [ha, hb] at h1 h2
          have hab : a = b := by
            have hn : a.toNat = b.toNat := by omega
            unfold Char.toNat at hn
            exact Char.ext (UInt32.toNat.inj hn)
          rw [hab, ih bs h1 h2]

theorem charsLt_trans : ∀ l m n : List Char,
    charsLt l m = true → charsLt m n = true → charsLt l n = true := by
  intro l
  induction l with
  | nil =>
    intro m n h1 h2
    cases n with
    | nil =>
      cases m with
      | nil => exact h1
      | cons b bs => simp [charsLt] at h2
    | cons c cs => simp [charsLt]
  | cons a as ih =>
    intro m n h1 h2
    cases m with
    | nil => simp [charsLt] at h1
    | cons b bs =>
      cases n with
      | nil => simp [charsLt] at h2
      | cons c cs =>
        simp only [charsLt] at h1 h2 ⊢
        by_cases hab : a.toNat < b.toNat
        · by_cases hbc : b.toNat < c.toNat
          · simp [show a.toNat < c.toNat by omega]
          · by_cases hcb : c.toNat < b.toNat
            · simp [hbc, hcb] at h2
            · have : a.toNat < c.toNat := by omega
              simp [this]
        · by_cases hba : b.toNat < a.toNat
          · simp [hab, hba] at h1
          · by_cases hbc : b.toNat < c.toNat
            · simp [show a.toNat < c.toNat by omega]
            · by_cases hcb : c.toNat < b.toNat
              · simp [hbc, hcb] at h2
              · have hac : ¬ a.toNat < c.toNat := by omega
                have hca : ¬ c.toNat < a.toNat := by omega
                simp [hab, hba] at h1
                simp [hbc, hcb] at h2
                simp [hac, hca]
                exact ih bs cs h1 h2

instance : IsTotal String pyLe := ⟨by
  intro a b
  unfold pyLe
  cases h : charsLt b.data a.data with
  | false => exact Or.inl rfl
  | true => exact Or.inr (charsLt_asymm _ _ h)⟩

instance : IsTrans String pyLe := ⟨by
  intro a b c hab hbc
  unfold pyLe at hab hbc ⊢
  cases h : charsLt c.data a.data with
  | false => rfl
  | true =>
    exfalso
    cases hab' : charsLt a.data b.data with
    | true =>
      have := charsLt_trans _ _ _ h hab'
      rw [this] at hbc
      cases hbc
    | false =>
      have hEq := charsLt_connex _ _ hab' hab
      rw [hEq] at h
      rw [h] at hbc
      cases hbc⟩

instance : IsAntisymm String pyLe := ⟨by
  intro a b hab hba
  unfold pyLe at hab hba
  have hd := charsLt_connex _ _ hba hab
  cases a with
  | mk la =>
    cases b with
    | mk lb => exact congrArg String.mk hd⟩

/-- Two permuted flag lists sort to the same list. -/
theorem pySorted_perm_eq {l₁ l₂ : List String} (h : l₁.Perm l₂) :
    pySorted l₁ = pySorted l₂ :=
  List.eq_of_perm_of_sorted
    ((List.perm_insertionSort pyLe l₁).trans (h.trans (List.perm_insertionSort pyLe l₂).symm))
    (List.sorted_insertionSort pyLe l₁) (List.sorted_insertionSort pyLe l₂)

/-! ### Facts about the option loop of the unlock operation -/

/-- The option loop appends exactly the flags of the recognized flag tokens,
in order, to its accumulator, provided every `tries=` token parses. -/
theorem unlock_options_go_spec : ∀ (opts acc : List String) (tries : Int),
    triesOk opts →
    ∃ n : Int, unlock_options_go opts acc tries = .ok (acc ++ opts.filterMap optionFlag, n) := by
  intro opts
  induction opts with
  | nil => exact fun acc tries _ => ⟨tries, by simp [unlock_options_go]⟩
  | cons o rest ih =>
    intro acc tries h
    have hrest : triesOk rest := fun x hx hpre => h x (List.mem_cons_of_mem _ hx) hpre
    by_cases h1 : o = "discard"
    · subst h1
      obtain ⟨n, hn⟩ := ih (acc ++ ["--allow-discards"]) tries hrest
      exact ⟨n, by simpa [unlock_options_go, optionFlag] using hn⟩
    · by_cases h2 : o = "readonly"
      · subst h2
        obtain ⟨n, hn⟩ := ih (acc ++ ["--readonly"]) tries hrest
        exact ⟨n, by simpa [unlock_options_go, optionFlag] using hn⟩
      · by_cases h3 : startswith o "tries=" = true
        · obtain ⟨v, hv⟩ := Option.isSome_iff_exists.mp (h o (List.mem_cons_self o rest) h3)
          obtain ⟨n, hn⟩ := ih acc v hrest
          refine ⟨n, ?_⟩
          simp only [unlock_options_go, if_neg h1, if_neg h2, h3, if_pos rfl, hv]
          simpa [optionFlag, h1, h2] using hn
        · obtain ⟨n, hn⟩ := ih acc tries hrest
          refine ⟨n, ?_⟩
          simp only [Bool.not_eq_true] at h3
          simp only [unlock_options_go, if_neg h1, if_neg h2, h3]
          simpa [optionFlag, h1, h2] using hn

/-- A loop over only unrecognized tokens changes nothing. -/
theorem unlock_options_go_ignored : ∀ (opts acc : List String) (tries : Int),
    (∀ o ∈ opts, o ≠ "discard" ∧ o ≠ "readonly" ∧ startswith o "tries=" = false) →
    unlock_options_go opts acc tries = .ok (acc, tries) := by
  intro opts
  induction opts with
  | nil => intro acc tries _; rfl
  | cons o rest ih =>
    intro acc tries h
    obtain ⟨h1, h2, h3⟩ := h o (List.mem_cons_self o rest)
    simp only [unlock_options_go, if_neg h1, if_neg h2, h3]
    exact ih acc tries fun x hx => h x (List.mem_cons_of_mem _ hx)

/-- Each occurrence of a recognized flag token contributes one occurrence of
its flag; nothing else produces these flags. -/
theorem filterMap_optionFlag_count : ∀ opts : List String,
    (opts.filterMap optionFlag).count "--allow-discards" = opts.count "discard" ∧
    (opts.filterMap optionFlag).count "--readonly" = opts.count "readonly" := by
  intro opts
  induction opts with
  | nil => simp
  | cons o rest ih =>
    by_cases h1 : o = "discard"
    · subst h1
      simp [optionFlag, List.count_cons, ih.1, ih.2]
    · by_cases h2 : o = "readonly"
      · subst h2
        simp [optionFlag, List.count_cons, ih.1, ih.2]
      · simp [optionFlag, h1, h2, List.count_cons, ih.1, ih.2, Ne.symm h1, Ne.symm h2]

theorem afterFirst_tries (l : List Char) :
    afterFirst '=' ('t' :: 'r' :: 'i' :: 'e' :: 's' :: '=' :: l) = l := by
  simp [afterFirst]

/-- Partition at the equals sign of a token with the retry-count marker in
front yields the value part. -/
theorem partitionAfter_tries (s : String) : partitionAfter ("tries=" ++ s) '=' = s := by
  cases s with
  | mk l =>
    have hd : ("tries=" ++ String.mk l).data = 't' :: 'r' :: 'i' :: 'e' :: 's' :: '=' :: l := rfl
    unfold partitionAfter
    rw [hd, afterFirst_tries]

theorem startswith_tries (s : String) : startswith ("tries=" ++ s) "tries=" = true := by
  cases s with
  | mk l =>
    show List.isPrefixOf _ _ = true
    have hd : ("tries=" ++ String.mk l).data = 't' :: 'r' :: 'i' :: 'e' :: 's' :: '=' :: l := rfl
    rw [hd]
    simp [List.isPrefixOf]

theorem tries_ne_discard (s : String) : "tries=" ++ s ≠ "discard" := by
  intro h
  have := congrArg String.data h
  cases s with
  | mk l => simp at this

theorem tries_ne_readonly (s : String) : "tries=" ++ s ≠ "readonly" := by
  intro h
  have := congrArg String.data h
  cases s with
  | mk l => simp at this

/-! ### Facts about the shim loops -/

theorem cryptdisks_start_go_append (t : String) (pre rest : List CrypttabEntry)
    (h : ∀ e' ∈ pre, ¬ entryMatches t e') :
    cryptdisks_start_go t (pre ++ rest) = cryptdisks_start_go t rest := by
  induction pre with
  | nil => rfl
  | cons e pre ih =>
    have he : ¬ entryMatches t e := h e (List.mem_cons_self e pre)
    simp only [List.cons_append, cryptdisks_start_go, if_neg he]
    exact ih fun x hx => h x (List.mem_cons_of_mem _ hx)

theorem cryptdisks_stop_go_append (t : String) (pre rest : List CrypttabEntry)
    (h : ∀ e' ∈ pre, ¬ entryMatches t e') :
    cryptdisks_stop_go t (pre ++ rest) = cryptdisks_stop_go t rest := by
  induction pre with
  | nil => rfl
  | cons e pre ih =>
    have he : ¬ entryMatches t e := h e (List.mem_cons_self e pre)
    simp only [List.cons_append, cryptdisks_stop_go, if_neg he]
    exact ih fun x hx => h x (List.mem_cons_of_mem _ hx)

theorem cryptdisks_start_go_notFound_iff (t : String) :
    ∀ entries : List CrypttabEntry,
      cryptdisks_start_go t entries = .notFound ↔ ∀ e ∈ entries, ¬ entryMatches t e := by
  intro entries
  induction entries with
  | nil => simp [cryptdisks_start_go]
  | cons e rest ih =>
    by_cases he : entryMatches t e
    · simp only [cryptdisks_start_go, if_pos he]
      constructor
      · intro h
        by_cases hu : e.is_unlocked <;> simp [hu] at h
      · intro h
        exact absurd he (h e (List.mem_cons_self e rest))
    · simp only [cryptdisks_start_go, if_neg he, ih]
      constructor
      · intro h x hx
        rcases List.mem_cons.mp hx with rfl | hx'
        · exact he
        · exact h x hx'
      · intro h x hx
        exact h x (List.mem_cons_of_mem _ hx)

theorem cryptdisks_stop_go_notFound_iff (t : String) :
    ∀ entries : List CrypttabEntry,
      cryptdisks_stop_go t entries = .notFound ↔ ∀ e ∈ entries, ¬ entryMatches t e := by
  intro entries
  induction entries with
  | nil => simp [cryptdisks_stop_go]
  | cons e rest ih =>
    by_cases he : entryMatches t e
    · simp only [cryptdisks_stop_go, if_pos he]
      constructor
      · intro h
        by_cases hu : e.is_unlocked <;> simp [hu] at h
      · intro h
        exact absurd he (h e (List.mem_cons_self e rest))
    · simp only [cryptdisks_stop_go, if_neg he, ih]
      constructor
      · intro h x hx
        rcases List.mem_cons.mp hx with rfl | hx'
        · exact he
        · exact h x hx'
      · intro h x hx
        exact h x (List.mem_cons_of_mem _ hx)

/-- Running a decision yields the target-not-found error exactly when the
decision was the for-else fallthrough. -/
theorem shim_run_valueError_iff (d : ShimDecision) (fails : Bool) :
    shim_run d fails =
        .exn (.valueError "Encrypted filesystem not listed in /etc/crypttab!") ↔
      d = .notFound := by
  cases d <;> cases fails <;> simp [shim_run]

/-- A command failure can only come from a delegated command, so the
decision was not the fallthrough and the oracle reported failure. -/
theorem shim_run_commandFailed (d : ShimDecision) (fails : Bool)
    (h : shim_run d fails = .exn .commandFailed) : d ≠ .notFound ∧ fails = true := by
  cases d <;> cases fails <;> simp_all [shim_run]

/-! ### The claims -/

/-- C1, counterexample: with a key file and both flag options, the
constructed invocation places the key-file flag between the two option
flags (all three are sorted together), not after them as the claim states
(option flags in sorted order followed by the key-file flag). -/
theorem unlock_key_file_flag_order_counterexample :
    unlock_open_command "/dev/sdb1" "vault" (some "K") (some ["discard", "readonly"]) =
      .ok ["cryptsetup", "--allow-discards", "--key-file=K", "--readonly",
        "luksOpen", "/dev/sdb1", "vault"] ∧
    (["cryptsetup", "--allow-discards", "--key-file=K", "--readonly",
        "luksOpen", "/dev/sdb1", "vault"] : List String) ≠
      ["cryptsetup", "--allow-discards", "--readonly", "--key-file=K",
        "luksOpen", "/dev/sdb1", "vault"] :=
  ⟨by decide, by decide⟩

/-- C1, amended: for every call whose tries tokens parse, the constructed
invocation is cryptsetup, then the collected flags — the discard flag, the
read-only flag and the key-file flag, as applicable — sorted together
lexicographically, then luksOpen, the device and the target. -/
theorem unlock_command_flags_sorted_together (device_file target : String)
    (key_file : Option String) (opts : List String) (h : triesOk opts) :
    unlock_open_command device_file target key_file (some opts) =
      .ok (["cryptsetup"] ++ spec_unlock_flags key_file opts ++
        ["luksOpen", device_file, target]) := by
  obtain ⟨n, hn⟩ := unlock_options_go_spec opts (keyFileFlags key_file) 3 h
  unfold unlock_open_command unlock_prepare
  simp only [Option.getD_some]
  rw [hn]
  unfold spec_unlock_flags
  rw [pySorted_perm_eq List.perm_append_comm]

/-- C1, witness: the amended claim at a concrete call. -/
theorem unlock_command_flags_sorted_together_witness :
    unlock_open_command "/dev/sdb1" "vault" (some "K")
        (some ["discard", "readonly", "tries=5"]) =
      .ok ["cryptsetup", "--allow-discards", "--key-file=K", "--readonly",
        "luksOpen", "/dev/sdb1", "vault"] :=
  (unlock_command_flags_sorted_together "/dev/sdb1" "vault" (some "K")
    ["discard", "readonly", "tries=5"] (by decide)).trans (by decide)

/-- C2: the open command is attempted up to tries times; a failure is
retried, with one warning logged per retry, exactly when no key file was
supplied and the attempt count has not reached the limit.  With tries 3,
no key file and three failures the error surfaces after the third attempt
with two warnings; with tries 1 and no key file a single failure raises
immediately with no warning; with a key file a failure raises immediately
regardless of the limit; and a retry with warning does happen when no key
file was supplied and attempts remain. -/
theorem unlock_retry_policy (fails : Nat → Bool) :
    (fails 1 = true → fails 2 = true → fails 3 = true →
      unlock_run fails false 3 = ⟨3, 2, .commandFailed⟩) ∧
    (fails 1 = true → unlock_run fails false 1 = ⟨1, 0, .commandFailed⟩) ∧
    (∀ tries : Int, 1 ≤ tries → fails 1 = true →
      unlock_run fails true tries = ⟨1, 0, .commandFailed⟩) ∧
    (∀ tries : Int, 1 < tries → fails 1 = true → fails 2 = false →
      unlock_run fails false tries = ⟨2, 1, .success⟩) := by
  refine ⟨?_, ?_, ?_, ?_⟩
  · intro h1 h2 h3
    simp [unlock_run, unlock_go, h1, h2, h3]
  · intro h1
    simp [unlock_run, unlock_go, h1]
  · intro tries htries h1
    unfold unlock_run unlock_go
    have hg : ¬(tries ≠ 0 ∧ tries < ((1 : Nat) : Int)) := by push_cast; omega
    rw [if_neg hg, h1]
    simp
  · intro tries htries h1 h2
    unfold unlock_run
    have hf : tries.toNat = tries.toNat - 1 + 1 := by omega
    rw [hf]
    unfold unlock_go
    have hg : ¬(tries ≠ 0 ∧ tries < ((1 : Nat) : Int)) := by push_cast; omega
    rw [if_neg hg, h1]
    have hc : ((1 : Nat) : Int) < tries ∧ false = false := ⟨by push_cast; omega, rfl⟩
    rw [if_neg (by simp), if_pos hc]
    unfold unlock_go
    have hg2 : ¬(tries ≠ 0 ∧ tries < ((1 + 1 : Nat) : Int)) := by push_cast; omega
    rw [if_neg hg2, h2]
    simp

/-- C2, witness: the all-failures run at tries 3 and a first-failure run
with a later success. -/
theorem unlock_retry_policy_witness :
    unlock_run (fun _ => true) false 3 = ⟨3, 2, .commandFailed⟩ ∧
    unlock_run (fun n => decide (n = 1)) false 5 = ⟨2, 1, .success⟩ :=
  ⟨(unlock_retry_policy (fun _ => true)).1 rfl rfl rfl,
   (unlock_retry_policy (fun n => decide (n = 1))).2.2.2 5 (by decide) (by decide) (by decide)⟩

/-- C3, counterexample: the mode set by generate_key_file is 400 (octal),
that is 256, whose owner write bit is clear — the owner may not write, so
the permission mode is not owner-read-write-only as claimed. -/
theorem generate_key_file_mode_counterexample :
    (generate_key_file "key" 2048).map Invocation.args =
      [["dd", "if=/dev/urandom", "of=key", "bs=2048", "count=1"],
       ["chown", "root:root", "key"], ["chmod", "400", "key"]] ∧
    parseOctal "400" = some 256 ∧ ownerCanWrite 256 = false := by
  decide

/-- C3, amended: after generate_key_file succeeds the key file is owned by
root (chown root:root, sudo) and its mode is owner-read-only (chmod 400):
the owner may read but not write or execute, and group and other have no
permission at all. -/
theorem generate_key_file_ownership_and_mode (filename : String) (size : Nat) :
    generate_key_file filename size =
      [⟨["dd", "if=/dev/urandom", "of=" ++ filename, "bs=" ++ toString size, "count=1"],
         true, none, false, true⟩,
       ⟨["chown", "root:root", filename], true, none, false, false⟩,
       ⟨["chmod", "400", filename], true, none, false, false⟩] ∧
    parseOctal "400" = some 256 ∧
    ownerCanRead 256 = true ∧ ownerCanWrite 256 = false ∧ ownerCanExec 256 = false ∧
    groupBits 256 = 0 ∧ otherBits 256 = 0 :=
  ⟨rfl, by decide, by decide, by decide, by decide, by decide, by decide⟩

/-- C4: with the native helper available both shims delegate to it with
sudo and their behavior does not depend on the registry entries at all;
without it, each shim acts on the first entry matching the target name and
carrying the luks option — unlocking (start) or locking (stop) only when
the unlock status requires it and doing nothing otherwise. -/
theorem cryptdisks_shim_decisions (t : String) :
    (∀ entries entries' : List CrypttabEntry,
      cryptdisks_start_decision t true entries =
        .runNative ⟨["cryptdisks_start", t], true, none, false, false⟩ ∧
      cryptdisks_stop_decision t true entries =
        .runNative ⟨["cryptdisks_stop", t], true, none, false, false⟩ ∧
      cryptdisks_start_decision t true entries = cryptdisks_start_decision t true entries' ∧
      cryptdisks_stop_decision t true entries = cryptdisks_stop_decision t true entries') ∧
    (∀ (pre : List CrypttabEntry) (e : CrypttabEntry) (post : List CrypttabEntry),
      (∀ e' ∈ pre, ¬ entryMatches t e') → entryMatches t e →
      cryptdisks_start_decision t false (pre ++ e :: post) =
        (if e.is_unlocked then .nothingToDo
         else .doUnlock e.source_device e.key_file e.options e.target) ∧
      cryptdisks_stop_decision t false (pre ++ e :: post) =
        (if e.is_unlocked then .doLock t else .nothingToDo)) := by
  constructor
  · intro entries entries'
    exact ⟨rfl, rfl, rfl, rfl⟩
  · intro pre e post hpre he
    constructor
    · show cryptdisks_start_go t (pre ++ e :: post) = _
      rw [cryptdisks_start_go_append t pre _ hpre]
      simp only [cryptdisks_start_go, if_pos he]
    · show cryptdisks_stop_go t (pre ++ e :: post) = _
      rw [cryptdisks_stop_go_append t pre _ hpre]
      simp only [cryptdisks_stop_go, if_pos he]

/-- C4, witness: a registry with one non-matching and one matching locked
entry makes start unlock that entry and stop do nothing. -/
theorem cryptdisks_shim_decisions_witness :
    cryptdisks_start_decision "vault" false
      [⟨"other", "/dev/sda1", none, ["luks"], false⟩,
       ⟨"vault", "/dev/sdb1", some "K", ["luks", "discard"], false⟩] =
      .doUnlock "/dev/sdb1" (some "K") ["luks", "discard"] "vault" ∧
    cryptdisks_stop_decision "vault" false
      [⟨"other", "/dev/sda1", none, ["luks"], false⟩,
       ⟨"vault", "/dev/sdb1", some "K", ["luks", "discard"], false⟩] =
      .nothingToDo :=
  ⟨(((cryptdisks_shim_decisions "vault").2 [⟨"other", "/dev/sda1", none, ["luks"], false⟩]
      ⟨"vault", "/dev/sdb1", some "K", ["luks", "discard"], false⟩ []
      (by decide) (by decide)).1).trans (by decide),
   (((cryptdisks_shim_decisions "vault").2 [⟨"other", "/dev/sda1", none, ["luks"], false⟩]
      ⟨"vault", "/dev/sdb1", some "K", ["luks", "discard"], false⟩ []
      (by decide) (by decide)).2).trans (by decide)⟩

/-- C5: in emulation mode each shim raises the target-not-found ValueError
exactly when no registry entry matches the target name and carries the
luks option, and a command-failure error implies a matching entry existed
and the delegated operation failed. -/
theorem cryptdisks_target_not_found_iff (t : String) (entries : List CrypttabEntry)
    (fails : Bool) :
    (cryptdisks_start_run t false entries fails =
        .exn (.valueError "Encrypted filesystem not listed in /etc/crypttab!") ↔
      ∀ e ∈ entries, ¬ entryMatches t e) ∧
    (cryptdisks_stop_run t false entries fails =
        .exn (.valueError "Encrypted filesystem not listed in /etc/crypttab!") ↔
      ∀ e ∈ entries, ¬ entryMatches t e) ∧
    (cryptdisks_start_run t false entries fails = .exn .commandFailed →
      (∃ e ∈ entries, entryMatches t e) ∧ fails = true) ∧
    (cryptdisks_stop_run t false entries fails = .exn .commandFailed →
      (∃ e ∈ entries, entryMatches t e) ∧ fails = true) := by
  have hs : cryptdisks_start_decision t false entries = cryptdisks_start_go t entries := rfl
  have hp : cryptdisks_stop_decision t false entries = cryptdisks_stop_go t entries := rfl
  refine ⟨?_, ?_, ?_, ?_⟩
  · rw [cryptdisks_start_run, shim_run_valueError_iff, hs,
      cryptdisks_start_go_notFound_iff]
  · rw [cryptdisks_stop_run, shim_run_valueError_iff, hp,
      cryptdisks_stop_go_notFound_iff]
  · intro h
    obtain ⟨hnf, hf⟩ := shim_run_commandFailed _ _ h
    rw [hs] at hnf
    refine ⟨?_, hf⟩
    by_contra hno
    push_neg at hno
    exact hnf ((cryptdisks_start_go_notFound_iff t entries).mpr fun e he => hno e he)
  · intro h
    obtain ⟨hnf, hf⟩ := shim_run_commandFailed _ _ h
    rw [hp] at hnf
    refine ⟨?_, hf⟩
    by_contra hno
    push_neg at hno
    exact hnf ((cryptdisks_stop_go_notFound_iff t entries).mpr fun e he => hno e he)

/-- C5, witness: an empty registry raises the target-not-found error. -/
theorem cryptdisks_target_not_found_iff_witness :
    cryptdisks_start_run "vault" false [] false =
      .exn (.valueError "Encrypted filesystem not listed in /etc/crypttab!") :=
  (cryptdisks_target_not_found_iff "vault" [] false).1.mpr (by simp)

/-- C6, counterexample: the token tries=x is neither of the recognized
forms, yet it is not silently ignored — the call raises ValueError instead
of producing the same command as an empty option set. -/
theorem unlock_tries_token_counterexample :
    unlock_open_command "/dev/sdb1" "vault" none (some ["tries=x"]) =
      .exn (.valueError "invalid literal for int with base 10") ∧
    unlock_open_command "/dev/sdb1" "vault" none none =
      .ok ["cryptsetup", "luksOpen", "/dev/sdb1", "vault"] ∧
    unlock_open_command "/dev/sdb1" "vault" none (some ["tries=x"]) ≠
      unlock_open_command "/dev/sdb1" "vault" none none := by
  decide

/-- C6, amended: option parsing maps discard to the discard flag, readonly
to the read-only flag, and any token starting with tries= to a retry-count
override (default 3), the value after the first equals sign going through
int — a non-integer value raises ValueError rather than being ignored;
every token that is none of discard, readonly, or a tries= token is
silently ignored and contributes nothing. -/
theorem unlock_option_parsing (d t : String) :
    (∀ opts : List String,
      (∀ o ∈ opts, o ≠ "discard" ∧ o ≠ "readonly" ∧ startswith o "tries=" = false) →
      unlock_prepare d t none (some opts) = .ok (["cryptsetup", "luksOpen", d, t], 3)) ∧
    (unlock_prepare d t none (some ["discard"]) =
      .ok (["cryptsetup", "--allow-discards", "luksOpen", d, t], 3)) ∧
    (unlock_prepare d t none (some ["readonly"]) =
      .ok (["cryptsetup", "--readonly", "luksOpen", d, t], 3)) ∧
    (∀ (s : String) (n : Int), pyInt? s = some n →
      unlock_prepare d t none (some ["tries=" ++ s]) =
        .ok (["cryptsetup", "luksOpen", d, t], n)) ∧
    (∀ s : String, pyInt? s = none →
      unlock_prepare d t none (some ["tries=" ++ s]) =
        .exn (.valueError "invalid literal for int with base 10")) := by
  refine ⟨?_, rfl, rfl, ?_, ?_⟩
  · intro opts h
    unfold unlock_prepare
    simp only [Option.getD_some]
    rw [unlock_options_go_ignored opts (keyFileFlags none) 3 h]
    rfl
  · intro s n hs
    unfold unlock_prepare
    simp only [Option.getD_some]
    simp only [unlock_options_go, if_neg (tries_ne_discard s), if_neg (tries_ne_readonly s),
      startswith_tries s, if_pos rfl, partitionAfter_tries, hs]
    rfl
  · intro s hs
    unfold unlock_prepare
    simp only [Option.getD_some]
    simp only [unlock_options_go, if_neg (tries_ne_discard s), if_neg (tries_ne_readonly s),
      startswith_tries s, if_pos rfl, partitionAfter_tries, hs]
    rfl

/-- C6, witness: unrecognized tokens are dropped and a parsing tries token
overrides the retry count. -/
theorem unlock_option_parsing_witness :
    unlock_prepare "/dev/sdb1" "vault" none (some ["noauto", "x"]) =
      .ok (["cryptsetup", "luksOpen", "/dev/sdb1", "vault"], 3) ∧
    unlock_prepare "/dev/sdb1" "vault" none (some ["tries=" ++ "5"]) =
      .ok (["cryptsetup", "luksOpen", "/dev/sdb1", "vault"], 5) :=
  ⟨(unlock_option_parsing "/dev/sdb1" "vault").1 ["noauto", "x"] (by decide),
   (unlock_option_parsing "/dev/sdb1" "vault").2.2.2.1 "5" 5 (by decide)⟩

/-- C7: with a (nonempty) key file the format invocation carries
batch mode, appends the key file after the device and runs without a
pseudo-terminal; without a key file it omits both and allocates one. -/
theorem create_encrypted_filesystem_modes (device_file : String) :
    (∀ k : String, k ≠ "" →
      create_encrypted_filesystem device_file (some k) =
        ⟨["cryptsetup", "--batch-mode", "luksFormat", device_file, k],
          true, some false, false, false⟩) ∧
    create_encrypted_filesystem device_file none =
      ⟨["cryptsetup", "luksFormat", device_file], true, some true, false, false⟩ := by
  constructor
  · intro k hk
    unfold create_encrypted_filesystem
    have ht : pyTruthy (some k) = true := by
      simp [pyTruthy, hk]
    rw [ht]
    simp
  · rfl

/-- C7, witness: the key-file branch at a concrete call. -/
theorem create_encrypted_filesystem_modes_witness :
    create_encrypted_filesystem "/dev/sdb1" (some "K") =
      ⟨["cryptsetup", "--batch-mode", "luksFormat", "/dev/sdb1", "K"],
        true, some false, false, false⟩ :=
  (create_encrypted_filesystem_modes "/dev/sdb1").1 "K" (by decide)

/-- C8: for every size, create_image_file issues a byte-count copy of
exactly size zero bytes from the zero device to the (fresh, truncated)
target, and generate_key_file issues a single-block write of block size
size from the random device, which writes size times one bytes. -/
theorem requested_byte_counts (filename : String) (size : Nat) :
    create_image_file filename size =
      ⟨["head --bytes=" ++ toString size ++ " /dev/zero > " ++ quote filename],
        false, some false, true, false⟩ ∧
    (generate_key_file filename size).map Invocation.args =
      [["dd", "if=/dev/urandom", "of=" ++ filename, "bs=" ++ toString size, "count=1"],
       ["chown", "root:root", filename], ["chmod", "400", filename]] ∧
    ddBytes size 1 = size :=
  ⟨rfl, rfl, Nat.mul_one size⟩

/-- C9: the scoped temporary key file generates the key file on
acquisition via the key-generation invocations and force-removes it with
sudo on release; on every exit of an entered scope with a succeeding
removal — whatever the body did to the file and however it ended — the
file is no longer on disk and the outcome of the body propagates, while a
failing removal surfaces as a command failure of the release step. -/
theorem temporary_key_file_cleanup (filename : String) (size : Nat)
    (body : Bool → PyResult Unit × Bool) (s0 : Bool) :
    temporaryKeyFile_enter_invocations filename size = generate_key_file filename size ∧
    temporaryKeyFile_exit_invocation filename =
      ⟨["rm", "--force", filename], true, none, false, false⟩ ∧
    (temporary_key_file_scope false false body s0).2 = false ∧
    (temporary_key_file_scope false false body s0).1 = (body true).1 ∧
    (temporary_key_file_scope false true body s0).1 = .exn .commandFailed := by
  refine ⟨rfl, rfl, ?_, ?_, ?_⟩ <;>
  · unfold temporary_key_file_scope pyWith temporaryKeyFile_enter temporaryKeyFile_exit
    rcases h : body true with ⟨r, s2⟩
    simp [h]

/-- C10: recognized flag tokens are not deduplicated: each occurrence of
discard or readonly in the options contributes one occurrence of its flag
to the constructed invocation, so a token given twice yields its flag
twice. -/
theorem unlock_flags_not_deduplicated (d t : String) (opts : List String)
    (h : triesOk opts)
    (hd1 : d ≠ "--allow-discards") (ht1 : t ≠ "--allow-discards")
    (hd2 : d ≠ "--readonly") (ht2 : t ≠ "--readonly") :
    ∀ (cmd : List String) (n : Int),
      unlock_prepare d t none (some opts) = .ok (cmd, n) →
      cmd.count "--allow-discards" = opts.count "discard" ∧
      cmd.count "--readonly" = opts.count "readonly" := by
  intro cmd n hrun
  obtain ⟨m, hm⟩ := unlock_options_go_spec opts (keyFileFlags none) 3 h
  unfold unlock_prepare at hrun
  simp only [Option.getD_some] at hrun
  rw [hm] at hrun
  have hcmd := (Prod.mk.injEq _ _ _ _).mp (PyResult.ok.inj hrun)
  obtain ⟨hcmd, -⟩ := hcmd
  subst hcmd
  have hperm := List.perm_insertionSort pyLe ((keyFileFlags none) ++ opts.filterMap optionFlag)
  have hcount := filterMap_optionFlag_count opts
  constructor
  · rw [List.count_append, List.count_append]
    have h2 : (pySorted (keyFileFlags none ++ opts.filterMap optionFlag)).count
        "--allow-discards" = (opts.filterMap optionFlag).count "--allow-discards" := by
      have := hperm.count_eq "--allow-discards"
      simpa [pySorted, keyFileFlags] using this
    rw [h2, hcount.1]
    simp [List.count_cons, hd1.symm, ht1.symm, List.count_nil]
  · rw [List.count_append, List.count_append]
    have h2 : (pySorted (keyFileFlags none ++ opts.filterMap optionFlag)).count
        "--readonly" = (opts.filterMap optionFlag).count "--readonly" := by
      have := hperm.count_eq "--readonly"
      simpa [pySorted, keyFileFlags] using this
    rw [h2, hcount.2]
    simp [List.count_cons, hd2.symm, ht2.symm, List.count_nil]

/-- C10, witness: discard twice puts the discard flag twice into the
command. -/
theorem unlock_flags_not_deduplicated_witness :
    (["cryptsetup", "--allow-discards", "--allow-discards", "luksOpen",
        "/dev/sdb1", "vault"] : List String).count "--allow-discards" =
      (["discard", "discard"] : List String).count "discard" :=
  (unlock_flags_not_deduplicated "/dev/sdb1" "vault" ["discard", "discard"]
    (by decide) (by decide) (by decide) (by decide) (by decide)
    ["cryptsetup", "--allow-discards", "--allow-discards", "luksOpen", "/dev/sdb1", "vault"]
    3 (by decide)).1

end LinuxUtils
